import Mathlib

-- Verification development for the `exotrace` core module (`exotrace/core.py`).
--
-- Modelling conventions used throughout this file:
--   * numpy float arrays of length 3 are modelled as `Vec3` over `ℝ`;
--   * `np.inf` results are modelled with `WithTop ℝ` (`⊤` standing for `+infinity`);
--   * a value that numpy would compute as `NaN` is modelled as `none` in
--     `Option _` (so `nrm v = none` means "normalize returned an all-NaN array",
--     numpy emits a RuntimeWarning there, it does not raise);
--   * `np.arctan2 y x` is `Complex.arg ⟨x, y⟩` (both have range `(-π, π]` and
--     both send `(0, 0)` to `0`);
--   * the python `%` on floats (sign of the divisor) is `pymod`.

set_option maxHeartbeats 1600000

noncomputable section

open Real

namespace exotrace

/-- A 3-component real vector, modelling the length-3 numpy float arrays used
for positions and directions in `exotrace.core`. -/
@[ext]
structure Vec3 where
  x : ℝ
  y : ℝ
  z : ℝ

instance : Add Vec3 := ⟨fun a b => ⟨a.x + b.x, a.y + b.y, a.z + b.z⟩⟩

instance : Sub Vec3 := ⟨fun a b => ⟨a.x - b.x, a.y - b.y, a.z - b.z⟩⟩

instance : SMul ℝ Vec3 := ⟨fun t v => ⟨t * v.x, t * v.y, t * v.z⟩⟩

@[simp] lemma Vec3.add_x (a b : Vec3) : (a + b).x = a.x + b.x := rfl

@[simp] lemma Vec3.add_y (a b : Vec3) : (a + b).y = a.y + b.y := rfl

@[simp] lemma Vec3.add_z (a b : Vec3) : (a + b).z = a.z + b.z := rfl

@[simp] lemma Vec3.sub_x (a b : Vec3) : (a - b).x = a.x - b.x := rfl

@[simp] lemma Vec3.sub_y (a b : Vec3) : (a - b).y = a.y - b.y := rfl

@[simp] lemma Vec3.sub_z (a b : Vec3) : (a - b).z = a.z - b.z := rfl

@[simp] lemma Vec3.smul_x (t : ℝ) (v : Vec3) : (t • v).x = t * v.x := rfl

@[simp] lemma Vec3.smul_y (t : ℝ) (v : Vec3) : (t • v).y = t * v.y := rfl

@[simp] lemma Vec3.smul_z (t : ℝ) (v : Vec3) : (t • v).z = t * v.z := rfl

/-- `np.dot` on length-3 arrays. -/
def dot (a b : Vec3) : ℝ := a.x * b.x + a.y * b.y + a.z * b.z

/-- `np.linalg.norm` on a length-3 array. -/
def vnorm (v : Vec3) : ℝ := sqrt (dot v v)

lemma dot_self_nonneg (v : Vec3) : 0 ≤ dot v v := by
  simp only [dot]
  nlinarith [sq_nonneg v.x, sq_nonneg v.y, sq_nonneg v.z]

lemma vnorm_nonneg (v : Vec3) : 0 ≤ vnorm v := sqrt_nonneg _

lemma sq_vnorm (v : Vec3) : vnorm v ^ 2 = dot v v := sq_sqrt (dot_self_nonneg v)

/-- `normalize(x)` from `exotrace.core`: `x /= np.linalg.norm(x); return x`.
When `|x| = 0` every component is the float division `0.0 / 0.0`, i.e. numpy
returns an all-NaN array (with a RuntimeWarning, not an exception); that NaN
outcome is modelled as `none`. -/
def nrm (v : Vec3) : Option Vec3 :=
  if vnorm v = 0 then none
  else some ⟨v.x / vnorm v, v.y / vnorm v, v.z / vnorm v⟩

/-- `np.arctan2 y x`, modelled as the argument of the complex number `x + y*I`;
both have range `(-π, π]` and both map `(0, 0)` to `0`. -/
def atan2 (y x : ℝ) : ℝ := Complex.arg ⟨x, y⟩

/-- `np.radians`. -/
def radians (d : ℝ) : ℝ := d * π / 180

/-- `np.degrees`. -/
def degrees (r : ℝ) : ℝ := r * 180 / π

/-- Python float `%` (result has the sign of the divisor). -/
def pymod (a m : ℝ) : ℝ := a - m * ⌊a / m⌋

/-- The meridian update of `Star.rotate`: `(x % 360)`, then subtract `360`
when the result exceeds `180`. -/
def reduceDeg (a : ℝ) : ℝ :=
  let m := pymod a 360
  if 180 < m then m - 360 else m

/-- `np.linspace a b n` (with endpoint), as a function on `Fin n`. -/
def linspace (a b : ℝ) (n : ℕ) : Fin n → ℝ :=
  fun i => a + (i.val : ℝ) * (b - a) / ((n : ℝ) - 1)

/-- Float division that records the `0 / 0 = NaN` case as `none`.  In the one
place this is used (the `mu` formula of `Scene.trace`) the denominator is a
product of norms, and it vanishes only when the numerator does too, so the
IEEE outcome of a vanishing denominator is exactly `NaN`. -/
def safeDiv (a b : ℝ) : Option ℝ := if b = 0 then none else some (a / b)

/-- The rotation matrix `Rx(alpha)` of `rotate_basis`, applied to a point. -/
def rotX (a : ℝ) (p : Vec3) : Vec3 :=
  ⟨p.x, cos a * p.y - sin a * p.z, sin a * p.y + cos a * p.z⟩

/-- The rotation matrix `Ry(beta)` of `rotate_basis`, applied to a point. -/
def rotY (b : ℝ) (p : Vec3) : Vec3 :=
  ⟨cos b * p.x + sin b * p.z, p.y, -sin b * p.x + cos b * p.z⟩

/-- The rotation matrix `Rz(gamma)` of `rotate_basis`, applied to a point. -/
def rotZ (g : ℝ) (p : Vec3) : Vec3 :=
  ⟨cos g * p.x - sin g * p.y, sin g * p.x + cos g * p.y, p.z⟩

/-- `rotate_basis(P, alpha, beta, gamma)`: applies `Rz(gamma) @ Ry(beta) @ Rx(alpha)`
to `P` (the python code forms the matrix product first; applying the three
factors right-to-left is the same map). -/
def rotate_basis (P : Vec3) (alpha beta gamma : ℝ) : Vec3 :=
  rotZ gamma (rotY beta (rotX alpha P))

/-- The Rodrigues rotation matrix of `rotate_axis_angle`, applied to `P`,
for an already-normalized axis `u`. -/
def rodrigues (u : Vec3) (theta : ℝ) (P : Vec3) : Vec3 :=
  let c := cos theta
  let s := sin theta
  ⟨(c + u.x ^ 2 * (1 - c)) * P.x + (u.x * u.y * (1 - c) - u.z * s) * P.y +
      (u.x * u.z * (1 - c) + u.y * s) * P.z,
    (u.y * u.x * (1 - c) + u.z * s) * P.x + (c + u.y ^ 2 * (1 - c)) * P.y +
      (u.y * u.z * (1 - c) - u.x * s) * P.z,
    (u.z * u.x * (1 - c) - u.y * s) * P.x + (u.z * u.y * (1 - c) + u.x * s) * P.y +
      (c + u.z ^ 2 * (1 - c)) * P.z⟩

/-- `rotate_axis_angle(P, u, theta)`: normalizes `u` first (so a zero axis
gives an all-NaN result, modelled as `none`), then applies the Rodrigues
matrix. -/
def rotate_axis_angle (P u : Vec3) (theta : ℝ) : Option Vec3 :=
  (nrm u).map fun w => rodrigues w theta P

/-- The numerical tolerance `1e-16` of `get_Euler_angles`. -/
def tol : ℝ := 1 / 10 ^ 16

/-- `get_Euler_angles(u, theta)` from `exotrace.core`, returning
`(alpha, beta, gamma)`.  Mirrors the source: degenerate substitutions for
`theta == 0` and `ux == uy == 0`, the transformation-matrix elements `RA__`,
the three-way branch on `RA22` against `±1` within `tol`, and the final
`arctan2` conversions. -/
def get_Euler_angles (u : Vec3) (theta0 : ℝ) : ℝ × ℝ × ℝ :=
  let theta := if theta0 = 0 then tol else theta0
  let ux := if u.x = 0 ∧ u.y = 0 then tol else u.x
  let uy := if u.x = 0 ∧ u.y = 0 then tol else u.y
  let uz := u.z
  let costheta := cos theta
  let sintheta := sin theta
  let RA01 := ux * uy * (1 - costheta) - uz * sintheta
  let RA02 := ux * uz * (1 - costheta) + uy * sintheta
  let RA11 := costheta + uy * uy * (1 - costheta)
  let RA12 := uy * uz * (1 - costheta) - ux * sintheta
  let RA20 := uz * ux * (1 - costheta) - uy * sintheta
  let RA21 := uz * uy * (1 - costheta) + ux * sintheta
  let RA22 := costheta + uz * uz * (1 - costheta)
  let cssc : ℝ × ℝ × ℝ × ℝ × ℝ × ℝ :=
    if RA22 < -1 + tol ∧ -1 - tol < RA22 then
      (-1, 0, RA11, RA01, 1, 0)
    else if RA22 < 1 + tol ∧ 1 - tol < RA22 then
      (1, 0, RA11, -RA01, 1, 0)
    else
      let cosbeta := RA22
      let sinbeta := sqrt (1 - cosbeta ^ 2)
      let norm1 := sqrt (RA20 * RA20 + RA21 * RA21)
      let norm2 := sqrt (RA02 * RA02 + RA12 * RA12)
      (cosbeta, sinbeta, -RA20 / norm1, RA21 / norm1, RA02 / norm2, RA12 / norm2)
  let cosbeta := cssc.1
  let sinbeta := cssc.2.1
  let cosgamma := cssc.2.2.1
  let singamma := cssc.2.2.2.1
  let cosalpha := cssc.2.2.2.2.1
  let sinalpha := cssc.2.2.2.2.2
  (atan2 sinalpha cosalpha, atan2 sinbeta cosbeta, atan2 singamma cosgamma)

/-- A `Ray`, as built by `Ray.__init__`: the stored unit direction
`u = normalize(direction - origin)` is `none` when `direction == origin`
(normalize of the zero vector is all-NaN). -/
structure Ray where
  origin : Vec3
  direction : Vec3
  u : Option Vec3

/-- `Ray(origin, direction)`. -/
def Ray.make (origin direction : Vec3) : Ray :=
  ⟨origin, direction, nrm (direction - origin)⟩

/-- What `Scene.trace` requires of a body: a sphere with `center` and
`radius` (a `Star` is used this way). -/
structure Body where
  center : Vec3
  radius : ℝ

/-- The core quadratic of `intersect` for a ray with (non-NaN) unit vector
`u` and origin `origin`.  Mirrors the source: `a = dot(u, u)`,
`b = 2 dot(u, origin - center)`, `c = dot(oc, oc) - radius**2`; if the
discriminant is `≥ 0` the two values `(-b ± sqrt(disc)) / 2` are sorted and
the smaller is returned when it is non-negative, otherwise the larger;
a negative discriminant returns `+infinity`. -/
def intersectU (u origin : Vec3) (body : Body) : WithTop ℝ :=
  let oc := origin - body.center
  let a := dot u u
  let b := 2 * dot u oc
  let c := dot oc oc - body.radius ^ 2
  let disc := b ^ 2 - 4 * a * c
  if 0 ≤ disc then
    let t1 := (-b + sqrt disc) / 2
    let t2 := (-b - sqrt disc) / 2
    if 0 ≤ min t1 t2 then ((min t1 t2 : ℝ) : WithTop ℝ) else ((max t1 t2 : ℝ) : WithTop ℝ)
  else ⊤

/-- `intersect(Ray, Star)` from `exotrace.core`.  A ray whose `u` is NaN
(`none`) makes the discriminant NaN, so the `discriminant >= 0` branch is not
taken and `np.inf` is returned. -/
def intersect (ray : Ray) (body : Body) : WithTop ℝ :=
  match ray.u with
  | none => ⊤
  | some u => intersectU u ray.origin body

/-- C1: for every ray and sphere, `intersect` returns `+infinity` when the
discriminant `b² - 4ac` is negative; otherwise it computes the two values
`(-b ± sqrt(disc)) / 2`, orders them ascending, and returns the smaller when
it is non-negative and the larger otherwise (even if negative); at tangency
(`disc = 0`) the two values coincide; and for a unit direction (`a = 1`,
which holds for every ray built from distinct points) both values are
genuine roots of the quadratic `a t² + b t + c`. -/
theorem C1_intersect_quadratic (ray : Ray) (body : Body) (u : Vec3)
    (hu : ray.u = some u) (a b c disc t1 t2 : ℝ)
    (ha : a = dot u u)
    (hb : b = 2 * dot u (ray.origin - body.center))
    (hc : c = dot (ray.origin - body.center) (ray.origin - body.center) - body.radius ^ 2)
    (hdisc : disc = b ^ 2 - 4 * a * c)
    (ht1 : t1 = (-b + sqrt disc) / 2)
    (ht2 : t2 = (-b - sqrt disc) / 2) :
    (disc < 0 → intersect ray body = ⊤)
    ∧ (0 ≤ disc → intersect ray body =
        (if 0 ≤ min t1 t2 then ((min t1 t2 : ℝ) : WithTop ℝ)
         else ((max t1 t2 : ℝ) : WithTop ℝ)))
    ∧ (disc = 0 → t1 = t2)
    ∧ (vnorm u = 1 → 0 ≤ disc →
        a * t1 ^ 2 + b * t1 + c = 0 ∧ a * t2 ^ 2 + b * t2 + c = 0) := by
  have hI : intersect ray body = intersectU u ray.origin body := by
    simp [intersect, hu]
  have hBody : intersectU u ray.origin body =
      if 0 ≤ disc then
        (if 0 ≤ min t1 t2 then ((min t1 t2 : ℝ) : WithTop ℝ)
         else ((max t1 t2 : ℝ) : WithTop ℝ))
      else ⊤ := by
    simp only [intersectU]
    rw [← hb, ← hc, ← ha, ← hdisc, ← ht1, ← ht2]
  refine ⟨?_, ?_, ?_, ?_⟩
  · intro hneg
    rw [hI, hBody, if_neg (not_le.mpr hneg)]
  · intro hpos
    rw [hI, hBody, if_pos hpos]
  · intro h0
    rw [ht1, ht2, h0, sqrt_zero]
    ring
  · intro hn hpos
    have ha1 : a = 1 := by
      rw [ha, ← sq_vnorm, hn]; norm_num
    have hs : sqrt disc ^ 2 = disc := sq_sqrt hpos
    have hd2 : disc = b ^ 2 - 4 * c := by rw [hdisc, ha1]; ring
    constructor
    · rw [ha1, ht1]
      linear_combination hs / 4 + hd2 / 4
    · rw [ha1, ht2]
      linear_combination hs / 4 + hd2 / 4

lemma sqrt_four : sqrt (4 : ℝ) = 2 := by
  rw [show (4 : ℝ) = 2 ^ 2 by norm_num, sqrt_sq (by norm_num : (0 : ℝ) ≤ 2)]

/-- Witness for C1 at a concrete input: the ray from `(0,0,2)` toward the
origin against the unit sphere at the origin has discriminant `4 ≥ 0` and
`intersect` returns the near-side distance `1`. -/
theorem C1_witness :
    (0 : ℝ) ≤ 16 - 4 * 1 * 3 ∧
      intersect (Ray.make ⟨0, 0, 2⟩ ⟨0, 0, 0⟩) ⟨⟨0, 0, 0⟩, 1⟩ = ((1 : ℝ) : WithTop ℝ) := by
  have hvn : vnorm (⟨0, 0, 0⟩ - ⟨0, 0, 2⟩ : Vec3) = 2 := by
    simp only [vnorm, dot, Vec3.sub_x, Vec3.sub_y, Vec3.sub_z]
    norm_num [sqrt_four]
  have hu : (Ray.make ⟨0, 0, 2⟩ ⟨0, 0, 0⟩).u = some ⟨0, 0, -1⟩ := by
    simp only [Ray.make, nrm, hvn]
    norm_num
  have h := C1_intersect_quadratic (Ray.make ⟨0, 0, 2⟩ ⟨0, 0, 0⟩) ⟨⟨0, 0, 0⟩, 1⟩
    ⟨0, 0, -1⟩ hu 1 (-4) 3 4 3 1
    (by simp [dot])
    (by simp [Ray.make, dot]; norm_num)
    (by simp [Ray.make, dot]; norm_num)
    (by norm_num)
    (by rw [sqrt_four]; norm_num)
    (by rw [sqrt_four]; norm_num)
  refine ⟨by norm_num, ?_⟩
  have h2 := h.2.1 (by norm_num)
  rw [h2]
  norm_num

/-- C3 (evaluating the code at the failing input): `normalize` applied to the
zero vector silently produces the all-NaN array (`none`), it does not raise
any error; for every vector of nonzero norm the result has unit norm. -/
theorem C3_normalize_zero_returns_nan :
    nrm ⟨0, 0, 0⟩ = none ∧ ∀ v : Vec3, vnorm v ≠ 0 → (nrm v).map vnorm = some 1 := by
  constructor
  · simp [nrm, vnorm, dot]
  · intro v hv
    have hpos : 0 < vnorm v := lt_of_le_of_ne (vnorm_nonneg v) (Ne.symm hv)
    rw [nrm, if_neg hv]
    have hdv : dot v v = vnorm v ^ 2 := (sq_vnorm v).symm
    have hdot : dot (⟨v.x / vnorm v, v.y / vnorm v, v.z / vnorm v⟩ : Vec3)
        (⟨v.x / vnorm v, v.y / vnorm v, v.z / vnorm v⟩ : Vec3) = 1 := by
      simp only [dot] at hdv ⊢
      field_simp
      linear_combination hdv
    have hone : vnorm (⟨v.x / vnorm v, v.y / vnorm v, v.z / vnorm v⟩ : Vec3) = 1 := by
      rw [vnorm, hdot, sqrt_one]
    rw [Option.map_some', hone]

/-- Witness for C3 at a concrete nonzero input: `normalize((0, 2, 0))` has
unit norm. -/
theorem C3_witness :
    vnorm ⟨0, 2, 0⟩ ≠ 0 ∧ (nrm ⟨0, 2, 0⟩).map vnorm = some 1 := by
  have h2 : vnorm (⟨0, 2, 0⟩ : Vec3) = 2 := by
    simp only [vnorm, dot]
    norm_num [sqrt_four]
  exact ⟨by rw [h2]; norm_num,
    (C3_normalize_zero_returns_nan).2 ⟨0, 2, 0⟩ (by rw [h2]; norm_num)⟩

/-- C5 counterexample: with `alpha = gamma = π/2` and `beta = 0`,
applying `rotate_basis` and then `rotate_basis` with all three angles negated
sends `(1, 0, 0)` to `(0, 0, -1)`, not back to `(1, 0, 0)`: the fixed
`Rz·Ry·Rx` composition is not inverted by negating the angles. -/
theorem C5_counterexample :
    rotate_basis (rotate_basis ⟨1, 0, 0⟩ (π / 2) 0 (π / 2)) (-(π / 2)) 0 (-(π / 2)) ≠
      (⟨1, 0, 0⟩ : Vec3) := by
  simp only [rotate_basis, rotX, rotY, rotZ, Real.cos_pi_div_two, Real.sin_pi_div_two,
    Real.cos_zero, Real.sin_zero, Real.cos_neg, Real.sin_neg]
  intro h
  have hx := congrArg Vec3.x h
  simp only at hx
  norm_num at hx

/-- C5 (amended): the round trip does hold whenever at most one of the three
angles is nonzero, which is the only way the source ever calls
`rotate_basis` (`gamma` alone in `rotate`, `alpha` alone in
`set_inclination`): rotating by an angle and then by its negation restores
the point exactly. -/
theorem C5_rotate_basis_single_angle_roundtrip (P : Vec3) (a : ℝ) :
    rotate_basis (rotate_basis P a 0 0) (-a) 0 0 = P ∧
    rotate_basis (rotate_basis P 0 a 0) 0 (-a) 0 = P ∧
    rotate_basis (rotate_basis P 0 0 a) 0 0 (-a) = P := by
  have h := sin_sq_add_cos_sq a
  refine ⟨?_, ?_, ?_⟩
  · simp only [rotate_basis, rotX, rotY, rotZ, Real.cos_zero, Real.sin_zero,
      Real.cos_neg, Real.sin_neg, one_mul, zero_mul, mul_zero, mul_one,
      sub_zero, add_zero, zero_add, neg_zero]
    ext
    · ring
    · linear_combination P.y * h
    · linear_combination P.z * h
  · simp only [rotate_basis, rotX, rotY, rotZ, Real.cos_zero, Real.sin_zero,
      Real.cos_neg, Real.sin_neg, one_mul, zero_mul, mul_zero, mul_one,
      sub_zero, add_zero, zero_add, neg_zero]
    ext
    · linear_combination P.x * h
    · ring
    · linear_combination P.z * h
  · simp only [rotate_basis, rotX, rotY, rotZ, Real.cos_zero, Real.sin_zero,
      Real.cos_neg, Real.sin_neg, one_mul, zero_mul, mul_zero, mul_one,
      sub_zero, add_zero, zero_add, neg_zero]
    ext
    · linear_combination P.x * h
    · linear_combination P.y * h
    · ring

-- ## The Star surface model

/-- A `(res, res)` numpy array with entries in `α`. -/
def Grid (res : ℕ) (α : Type) := Fin res × Fin res → α

/-- A `Spot`: geographic position, angular radius and flux contrast. -/
structure Spot where
  lat : ℝ
  lon : ℝ
  radius : ℝ
  contrast : ℝ

/-- `haversine(lat1, lon1, lat2, lon2)` from `exotrace.core` (degrees in and
out). -/
def haversine (lat1 lon1 lat2 lon2 : ℝ) : ℝ :=
  let rlat1 := radians lat1
  let rlat2 := radians lat2
  let dlon := radians lon2 - radians lon1
  let dlat := rlat2 - rlat1
  let a := sin (dlat / 2) ^ 2 + cos rlat1 * cos rlat2 * sin (dlon / 2) ^ 2
  degrees (2 * arcsin (sqrt a))

/-- `haversine` when the first point's coordinates come from the grid and may
be NaN (`none`); NaN in propagates NaN out. -/
def haversineO (lat1 lon1 : Option ℝ) (lat2 lon2 : ℝ) : Option ℝ :=
  match lat1, lon1 with
  | some a, some b => some (haversine a b lat2 lon2)
  | _, _ => none

/-- The state of a `Star` (resolution `res`).  Grids that can hold NaN are
`Option`-valued (`none` = NaN); the unused `N`, `r1`, `theta1`, `phi1`
arrays of the source (written by nothing and read by nothing relevant) are
omitted. -/
structure Star (res : ℕ) where
  center : Vec3
  radius : ℝ
  axis : Option Vec3
  inc : ℝ
  meridian : ℝ
  u1 : ℝ
  u2 : ℝ
  x : Fin res → ℝ
  y : Fin res → ℝ
  P : Grid res (Option Vec3)
  mu : Grid res (Option ℝ)
  r : Grid res (Option ℝ)
  theta : Grid res (Option ℝ)
  phi : Grid res (Option ℝ)
  lat : Grid res (Option ℝ)
  lon : Grid res (Option ℝ)
  flux : Grid res (Option ℝ)
  spots : List Spot

/-- `Star.__init__(center, radius, axis, res)`: note `axis` is normalized
(mutating the caller's array, see the store model below) and every grid is
zero-filled. -/
def Star.init (center : Vec3) (radius : ℝ) (axis : Vec3) (res : ℕ) : Star res :=
  { center := center, radius := radius, axis := nrm axis, inc := 90, meridian := 0,
    u1 := 0, u2 := 0,
    x := linspace (-radius) radius res, y := linspace (-radius) radius res,
    P := fun _ => some ⟨0, 0, 0⟩, mu := fun _ => some 0, r := fun _ => some 0,
    theta := fun _ => some 0, phi := fun _ => some 0, lat := fun _ => some 0,
    lon := fun _ => some 0, flux := fun _ => some 0, spots := [] }

/-- `self.r = np.sqrt(np.sum(self.P**2, axis=2))`: NaN points give NaN. -/
def deriveR {res : ℕ} (P : Grid res (Option Vec3)) : Grid res (Option ℝ) :=
  fun idx => (P idx).map vnorm

/-- `self.theta = np.arccos(self.P[:,:,2]/self.r)`: NaN points give NaN, and
`r == 0` gives the NaN of float `0/0` (for a genuine point `|Pz| ≤ r`, so the
`arccos` argument is always in range). -/
def deriveTheta {res : ℕ} (P : Grid res (Option Vec3)) : Grid res (Option ℝ) :=
  fun idx => (P idx).bind fun p =>
    if vnorm p = 0 then none else some (arccos (p.z / vnorm p))

/-- `self.phi = np.arctan2(self.P[:,:,0], self.P[:,:,1])`. -/
def derivePhi {res : ℕ} (P : Grid res (Option Vec3)) : Grid res (Option ℝ) :=
  fun idx => (P idx).map fun p => atan2 p.x p.y

/-- `self.lat = np.degrees(self.theta - np.pi/2)`. -/
def deriveLat {res : ℕ} (P : Grid res (Option Vec3)) : Grid res (Option ℝ) :=
  fun idx => (deriveTheta P idx).map fun t => degrees (t - π / 2)

/-- `self.lon = np.degrees(self.phi)`. -/
def deriveLon {res : ℕ} (P : Grid res (Option Vec3)) : Grid res (Option ℝ) :=
  fun idx => (derivePhi P idx).map degrees

/-- One step of the spot loop of `calc_flux` at one grid point: where the
haversine distance to the spot is defined and `≤ spot.radius`, the flux is
overwritten with the spot's contrast (a NaN distance compares false, leaving
the value unchanged). -/
def spotStep (latv lonv : Option ℝ) (f : ℝ) (spot : Spot) : ℝ :=
  match haversineO latv lonv spot.lat spot.lon with
  | none => f
  | some d => if d ≤ spot.radius then spot.contrast else f

/-- The flux grid computed by `calc_flux`: ones, masked to NaN (`none`) where
`r` is NaN, then each spot in list order overwrites its covered points. -/
def fluxGrid {res : ℕ} (r lat lon : Grid res (Option ℝ)) (spots : List Spot) :
    Grid res (Option ℝ) :=
  fun idx =>
    if (r idx).isNone then none
    else some (spots.foldl (spotStep (lat idx) (lon idx)) 1)

/-- The elementwise quadratic limb-darkening law of `limb_darken` (NaN in
either operand propagates). -/
def limbFlux {res : ℕ} (u1 u2 : ℝ) (mu flux : Grid res (Option ℝ)) :
    Grid res (Option ℝ) :=
  fun idx =>
    match flux idx, mu idx with
    | some f, some m => some (f - u1 * (f - m) - u2 * (f - m) ^ 2)
    | _, _ => none

/-- `Star.calc_flux()`. -/
def Star.calc_flux {res : ℕ} (s : Star res) : Star res :=
  { s with flux := fluxGrid s.r s.lat s.lon s.spots }

/-- `Star.limb_darken()`. -/
def Star.limb_darken {res : ℕ} (s : Star res) : Star res :=
  { s with flux := limbFlux s.u1 s.u2 s.mu s.flux }

/-- `Star.add(spots, overwrite)`. -/
def Star.add {res : ℕ} (s : Star res) (newSpots : List Spot) (overwrite : Bool) :
    Star res :=
  if overwrite then { s with spots := newSpots }
  else { s with spots := s.spots ++ newSpots }

/-- `Star.rotate(angle)`: reduce the meridian, rotate every grid point by
`rotate_basis(·, gamma = radians(-angle))`, recompute the derived coordinate
grids from the new `P`, then `calc_flux` and `limb_darken`. -/
def Star.rotate {res : ℕ} (s : Star res) (angle : ℝ) : Star res :=
  let P2 : Grid res (Option Vec3) :=
    fun idx => (s.P idx).map fun p => rotate_basis p 0 0 (radians (-angle))
  Star.limb_darken (Star.calc_flux
    { s with meridian := reduceDeg (s.meridian + angle),
             P := P2, r := deriveR P2, theta := deriveTheta P2, phi := derivePhi P2,
             lat := deriveLat P2, lon := deriveLon P2 })

/-- `Star.set_meridian(new_meridian)`. -/
def Star.set_meridian {res : ℕ} (s : Star res) (new_meridian : ℝ) : Star res :=
  s.rotate (new_meridian - s.meridian)

lemma pymod_eq_fract (x : ℝ) : pymod x 360 = 360 * Int.fract (x / 360) := by
  simp only [pymod, Int.fract]
  ring

lemma pymod_nonneg (x : ℝ) : 0 ≤ pymod x 360 := by
  rw [pymod_eq_fract]
  have := Int.fract_nonneg (x / 360)
  linarith

lemma pymod_lt (x : ℝ) : pymod x 360 < 360 := by
  rw [pymod_eq_fract]
  have := Int.fract_lt_one (x / 360)
  linarith

lemma reduceDeg_mem (x : ℝ) : -180 < reduceDeg x ∧ reduceDeg x ≤ 180 := by
  have h0 := pymod_nonneg x
  have h1 := pymod_lt x
  unfold reduceDeg
  by_cases h : 180 < pymod x 360
  · rw [if_pos h]
    constructor <;> linarith
  · rw [if_neg h]
    push_neg at h
    constructor <;> linarith

/-- C7: the meridian invariant.  A fresh `Star` has `meridian = 0`, every
`rotate(angle)` sets the meridian to `(meridian + angle)` reduced modulo 360
into the half-open interval `(-180, 180]`, and `set_meridian` is exactly a
`rotate` by the difference, so it reduces the meridian the same way. -/
theorem C7_meridian_invariant (res : ℕ) (center : Vec3) (radius : ℝ) (axis : Vec3)
    (s : Star res) (angle new_meridian : ℝ) :
    (Star.init center radius axis res).meridian = 0
    ∧ (s.rotate angle).meridian = reduceDeg (s.meridian + angle)
    ∧ -180 < (s.rotate angle).meridian
    ∧ (s.rotate angle).meridian ≤ 180
    ∧ s.set_meridian new_meridian = s.rotate (new_meridian - s.meridian) := by
  refine ⟨rfl, rfl, ?_, ?_, rfl⟩
  · have h := (reduceDeg_mem (s.meridian + angle)).1
    exact h
  · have h := (reduceDeg_mem (s.meridian + angle)).2
    exact h
lemma radians_neg_360 : radians (-360) = -(2 * π) := by
  unfold radians; ring

lemma rotate_basis_gamma_neg_two_pi (p : Vec3) : rotate_basis p 0 0 (-(2 * π)) = p := by
  simp only [rotate_basis, rotX, rotY, rotZ, Real.cos_zero, Real.sin_zero, Real.cos_neg,
    Real.sin_neg, Real.cos_two_pi, Real.sin_two_pi]
  ext <;> simp

lemma pymod_add_360 (x : ℝ) : pymod (x + 360) 360 = pymod x 360 := by
  unfold pymod
  rw [show (x + 360) / 360 = x / 360 + 1 by ring, Int.floor_add_one]
  push_cast
  ring

lemma reduceDeg_fixed (m : ℝ) (h1 : -180 < m) (h2 : m ≤ 180) : reduceDeg m = m := by
  unfold reduceDeg
  by_cases hm : 0 ≤ m
  · have hf : ⌊m / 360⌋ = (0 : ℤ) := by
      rw [Int.floor_eq_zero_iff]
      constructor
      · positivity
      · show m / 360 < 1
        linarith
    have hpm : pymod m 360 = m := by
      simp [pymod, hf]
    rw [hpm, if_neg (not_lt.mpr h2)]
  · have hf : ⌊m / 360⌋ = (-1 : ℤ) := by
      rw [Int.floor_eq_iff]
      push_cast
      constructor
      · linarith
      · linarith
    have hpm : pymod m 360 = m + 360 := by
      simp only [pymod, hf]
      push_cast
      ring
    rw [hpm, if_pos (by linarith)]
    ring

/-- C6: for a `Star` state satisfying the documented data-model invariants
(the derived coordinate grids come from `P` by the standard transform, the
flux grid is the one `calc_flux` plus `limb_darken` computes from the current
state, and the meridian lies in `(-180, 180]`), `rotate(360)` restores the
meridian to its pre-call value and restores the flux grid exactly: in exact
real arithmetic `Rz(-2π)` is the identity, so every grid point and every
recomputed grid coincides with its pre-call value. -/
theorem C6_rotate_360_identity (res : ℕ) (s : Star res)
    (h1 : -180 < s.meridian) (h2 : s.meridian ≤ 180)
    (hr : s.r = deriveR s.P) (hlat : s.lat = deriveLat s.P) (hlon : s.lon = deriveLon s.P)
    (hflux : s.flux = limbFlux s.u1 s.u2 s.mu (fluxGrid s.r s.lat s.lon s.spots)) :
    (s.rotate 360).meridian = s.meridian ∧ (s.rotate 360).flux = s.flux := by
  have hP2 : (fun idx => (s.P idx).map fun p => rotate_basis p 0 0 (radians (-(360 : ℝ)))) =
      s.P := by
    funext idx
    rw [radians_neg_360]
    cases s.P idx <;> simp [rotate_basis_gamma_neg_two_pi]
  constructor
  · show reduceDeg (s.meridian + 360) = s.meridian
    have : reduceDeg (s.meridian + 360) = reduceDeg s.meridian := by
      unfold reduceDeg
      rw [pymod_add_360]
    rw [this, reduceDeg_fixed s.meridian h1 h2]
  · show limbFlux s.u1 s.u2 s.mu
        (fluxGrid
          (deriveR fun idx => (s.P idx).map fun p => rotate_basis p 0 0 (radians (-(360 : ℝ))))
          (deriveLat fun idx => (s.P idx).map fun p => rotate_basis p 0 0 (radians (-(360 : ℝ))))
          (deriveLon fun idx => (s.P idx).map fun p => rotate_basis p 0 0 (radians (-(360 : ℝ))))
          s.spots) = s.flux
    rw [hP2, ← hr, ← hlat, ← hlon, ← hflux]

/-- A concrete single-pixel position grid used by the witnesses below. -/
def wP1 : Grid 1 (Option Vec3) := fun _ => some ⟨0, 0, 1⟩

/-- A concrete coherent `Star` state used by the C6 witness: one grid point
at the north pole, no spots, no limb darkening. -/
def wStar : Star 1 :=
  { center := ⟨0, 0, 0⟩, radius := 1, axis := nrm ⟨0, 1, 0⟩, inc := 90, meridian := 0,
    u1 := 0, u2 := 0, x := linspace (-1) 1 1, y := linspace (-1) 1 1,
    P := wP1, mu := fun _ => some 0, r := deriveR wP1, theta := deriveTheta wP1,
    phi := derivePhi wP1, lat := deriveLat wP1, lon := deriveLon wP1,
    flux := limbFlux 0 0 (fun _ => some 0)
      (fluxGrid (deriveR wP1) (deriveLat wP1) (deriveLon wP1) []),
    spots := [] }

/-- Witness for C6 at the concrete star `wStar`. -/
theorem C6_witness : (wStar.rotate 360).meridian = wStar.meridian ∧
    (wStar.rotate 360).flux = wStar.flux :=
  C6_rotate_360_identity 1 wStar (by norm_num [wStar]) (by norm_num [wStar])
    rfl rfl rfl rfl

/-- C8: with spot list exactly `[A, B]`, every on-disk grid point whose
haversine distance to `A` is within `A.radius` and to `B` within `B.radius`
(covered by both spots) ends up with flux `B.contrast` after `calc_flux`:
the later spot in the list overwrites the earlier one, with no blending. -/
theorem C8_later_spot_wins (res : ℕ) (s : Star res) (A B : Spot)
    (idx : Fin res × Fin res) (dA dB : ℝ)
    (hspots : s.spots = [A, B])
    (hr : (s.r idx).isSome)
    (hdA : haversineO (s.lat idx) (s.lon idx) A.lat A.lon = some dA) (hA : dA ≤ A.radius)
    (hdB : haversineO (s.lat idx) (s.lon idx) B.lat B.lon = some dB) (hB : dB ≤ B.radius) :
    (s.calc_flux).flux idx = some B.contrast := by
  obtain ⟨rv, hrv⟩ := Option.isSome_iff_exists.mp hr
  show fluxGrid s.r s.lat s.lon s.spots idx = some B.contrast
  rw [fluxGrid, hspots, hrv]
  simp only [Option.isNone_some, Bool.false_eq_true, if_false, List.foldl_cons,
    List.foldl_nil]
  simp only [spotStep, hdB, hB, if_true]

/-- A concrete one-pixel `Star` whose single grid point lies at geographic
`(0, 0)`, carrying two overlapping spots centred there; used by the C8
witness. -/
def wStar8 : Star 1 :=
  { center := ⟨0, 0, 0⟩, radius := 1, axis := nrm ⟨0, 1, 0⟩, inc := 90, meridian := 0,
    u1 := 0, u2 := 0, x := linspace (-1) 1 1, y := linspace (-1) 1 1,
    P := fun _ => some ⟨0, 1, 0⟩, mu := fun _ => some 0, r := fun _ => some 1,
    theta := fun _ => some (π / 2), phi := fun _ => some 0,
    lat := fun _ => some 0, lon := fun _ => some 0,
    flux := fun _ => some 1,
    spots := [⟨0, 0, 10, 1 / 2⟩, ⟨0, 0, 10, 1 / 4⟩] }

lemma haversine_zero : haversine 0 0 0 0 = 0 := by
  simp [haversine, radians, degrees]

/-- Witness for C8: on `wStar8` the doubly-covered point receives the second
spot's contrast `1/4`. -/
theorem C8_witness : (wStar8.calc_flux).flux (0, 0) = some (1 / 4 : ℝ) := by
  have h := C8_later_spot_wins 1 wStar8 ⟨0, 0, 10, 1 / 2⟩ ⟨0, 0, 10, 1 / 4⟩ (0, 0) 0 0
    rfl rfl
    (by show haversineO (some 0) (some 0) 0 0 = some 0
        rw [haversineO, haversine_zero])
    (by norm_num)
    (by show haversineO (some 0) (some 0) 0 0 = some 0
        rw [haversineO, haversine_zero])
    (by norm_num)
  exact h

/-- C9: for a `Star` with an empty spot list, `calc_flux` yields flux `1` at
every on-disk grid point (those whose `r` value is defined, i.e. not NaN),
while off-disk points (NaN `r`) receive no flux value (they stay masked). -/
theorem C9_no_spots_unit_flux (res : ℕ) (s : Star res) (hspots : s.spots = [])
    (idx : Fin res × Fin res) :
    ((s.r idx).isSome → (s.calc_flux).flux idx = some 1)
    ∧ (s.r idx = none → (s.calc_flux).flux idx = none) := by
  constructor
  · intro h
    obtain ⟨rv, hrv⟩ := Option.isSome_iff_exists.mp h
    show fluxGrid s.r s.lat s.lon s.spots idx = some 1
    rw [fluxGrid, hspots, hrv]
    simp
  · intro h
    show fluxGrid s.r s.lat s.lon s.spots idx = none
    rw [fluxGrid, h]
    simp

/-- Witness for C9: the concrete spotless star `wStar` has defined `r` at its
grid point and `calc_flux` gives flux `1` there. -/
theorem C9_witness : (wStar.r (0, 0)).isSome ∧ (wStar.calc_flux).flux (0, 0) = some 1 :=
  ⟨rfl, (C9_no_spots_unit_flux 1 wStar rfl (0, 0)).1 rfl⟩

-- ## The Scene compositor

/-- The record written into the output grids when a body wins the per-pixel
depth test: the owning body, the depth `t` and the limb-angle cosine `mu`
(the flux written is always the constant `1`). -/
structure Hit where
  body : Body
  t : WithTop ℝ
  mu : Option ℝ

/-- The `mu` formula of `Scene.trace` at a finite hit depth `tr`:
`dot(origin - P, P - center) / (|origin - P| * |P - center|)` with
`P = origin + tr * u`; a vanishing denominator is the float `0/0`, i.e. NaN
(`none`). -/
def muCore (origin u : Vec3) (tr : ℝ) (body : Body) : Option ℝ :=
  let P := origin + tr • u
  safeDiv (dot (origin - P) (P - body.center))
    (vnorm (origin - P) * vnorm (P - body.center))

/-- The `mu` value recorded for a hit; a NaN ray direction or an infinite `t`
would make it NaN (neither is ever recorded, since such a `t` never wins the
depth test). -/
def muVal (ray : Ray) (body : Body) (t : WithTop ℝ) : Option ℝ :=
  match ray.u with
  | none => none
  | some u => WithTop.recTopCoe none (fun tr => muCore ray.origin u tr body) t

/-- One iteration of the body loop of `Scene.trace` at one pixel: if the
body's `t` is not closer than the running minimum, skip (`t >= t_min:
continue`); otherwise it becomes the new minimum and its record is written. -/
def traceStep (ray : Ray) (st : WithTop ℝ × Option Hit) (body : Body) :
    WithTop ℝ × Option Hit :=
  let t := intersect ray body
  if st.1 ≤ t then st else (t, some ⟨body, t, muVal ray body t⟩)

/-- The whole body loop at one pixel, starting from `t_min = np.inf` and no
record; the second component is the record finally left in the grids (or
`none` when no body was written). -/
def tracePixel (ray : Ray) (bodies : List Body) : WithTop ℝ × Option Hit :=
  bodies.foldl (traceStep ray) (⊤, none)

/-- The state of a `Scene` (resolution `res`).  `zmax` is `⊤` for a scene
with no bodies; `flux`/`mu` grid cells are `none` where numpy holds NaN, the
`t` grid holds `⊤` for `np.inf`, and `body` holds `none` for the `None`
placeholder. -/
structure Scene (res : ℕ) where
  bodies : List Body
  x : Fin res → ℝ
  y : Fin res → ℝ
  extent : ℝ × ℝ
  zmax : WithTop ℝ
  flux : Grid res (Option ℝ)
  mu : Grid res (Option ℝ)
  t : Grid res (WithTop ℝ)
  body : Grid res (Option Body)

/-- `Scene.get_extent`: with no bodies, `extent = (-1, 1)` and
`zmax = np.inf`; otherwise the min/max of `center ± radius` over the bodies
in x and y, symmetrized, and the max of `center.z + radius`. -/
def sceneExtent (bodies : List Body) : (ℝ × ℝ) × WithTop ℝ :=
  match bodies with
  | [] => ((-1, 1), ⊤)
  | b :: bs =>
    let xmin := bs.foldl (fun acc c => min acc (c.center.x - c.radius)) (b.center.x - b.radius)
    let xmax := bs.foldl (fun acc c => max acc (c.center.x + c.radius)) (b.center.x + b.radius)
    let ymin := bs.foldl (fun acc c => min acc (c.center.y - c.radius)) (b.center.y - b.radius)
    let ymax := bs.foldl (fun acc c => max acc (c.center.y + c.radius)) (b.center.y + b.radius)
    let zmax := bs.foldl (fun acc c => max acc (c.center.z + c.radius)) (b.center.z + b.radius)
    ((min xmin ymin, max xmax ymax), ((zmax : ℝ) : WithTop ℝ))

/-- `Scene.__init__(bodies, res)`: records the bodies, computes the extent
and the pixel coordinate grids, and fills the output grids with their
defaults `flux = NaN`, `mu = NaN`, `t = np.inf`, `body = None`. -/
def Scene.init (bodies : List Body) (res : ℕ) : Scene res :=
  let e := sceneExtent bodies
  { bodies := bodies, x := linspace e.1.1 e.1.2 res, y := linspace e.1.1 e.1.2 res,
    extent := e.1, zmax := e.2,
    flux := fun _ => none, mu := fun _ => none, t := fun _ => ⊤, body := fun _ => none }

/-- `Scene.add(bodies)`: appends and recomputes the extent grids; the output
grids are left untouched. -/
def Scene.add {res : ℕ} (s : Scene res) (newBodies : List Body) : Scene res :=
  let bodies := s.bodies ++ newBodies
  let e := sceneExtent bodies
  { s with bodies := bodies, x := linspace e.1.1 e.1.2 res,
           y := linspace e.1.1 e.1.2 res, extent := e.1, zmax := e.2 }

/-- The ray cast for pixel `(j, i)`: origin `(x_i, y_j, zmax)` toward
`(x_i, y_j, 0)`.  When `zmax` is `np.inf` the constructed ray's direction
normalizes to NaN (modelled by a ray with `u = none`), so every intersection
test misses. -/
def pixelRay {res : ℕ} (s : Scene res) (idx : Fin res × Fin res) : Ray :=
  WithTop.recTopCoe ⟨⟨0, 0, 0⟩, ⟨0, 0, 0⟩, none⟩
    (fun z => Ray.make ⟨s.x idx.2, s.y idx.1, z⟩ ⟨s.x idx.2, s.y idx.1, 0⟩) s.zmax

/-- The record left at pixel `idx` by one run of the body loop (or `none`
when no body was written there). -/
def pixelResult {res : ℕ} (s : Scene res) (idx : Fin res × Fin res) : Option Hit :=
  (tracePixel (pixelRay s idx) s.bodies).2

/-- `Scene.trace()`: per pixel, run the body loop; where a body won the
depth test write its record (`flux = 1`, `mu`, `t`, owning `body`), and
where none did leave the grid cell as it was (the loop performs no reset). -/
def Scene.trace {res : ℕ} (s : Scene res) : Scene res :=
  { s with
    flux := fun idx => match pixelResult s idx with
      | some _ => some 1
      | none => s.flux idx,
    mu := fun idx => match pixelResult s idx with
      | some h => h.mu
      | none => s.mu idx,
    t := fun idx => match pixelResult s idx with
      | some h => h.t
      | none => s.t idx,
    body := fun idx => match pixelResult s idx with
      | some h => some h.body
      | none => s.body idx }

lemma traceStep_fst (ray : Ray) (st : WithTop ℝ × Option Hit) (body : Body) :
    (traceStep ray st body).1 = min st.1 (intersect ray body) := by
  unfold traceStep
  by_cases h : st.1 ≤ intersect ray body
  · rw [if_pos h]
    exact (min_eq_left h).symm
  · rw [if_neg h]
    exact (min_eq_right (le_of_not_le h)).symm

lemma fold_fst_le (ray : Ray) (bodies : List Body) :
    ∀ st : WithTop ℝ × Option Hit,
      (bodies.foldl (traceStep ray) st).1 ≤ st.1 ∧
      ∀ b ∈ bodies, (bodies.foldl (traceStep ray) st).1 ≤ intersect ray b := by
  induction bodies with
  | nil =>
    intro st
    exact ⟨le_refl _, by simp⟩
  | cons b bs ih =>
    intro st
    simp only [List.foldl_cons]
    have hstep := traceStep_fst ray st b
    have h1 := (ih (traceStep ray st b)).1
    refine ⟨?_, ?_⟩
    · exact le_trans h1 (le_trans (le_of_eq hstep) (min_le_left _ _))
    · intro c hc
      rcases List.mem_cons.mp hc with rfl | hc2
      · exact le_trans h1 (le_trans (le_of_eq hstep) (min_le_right _ _))
      · exact (ih (traceStep ray st b)).2 c hc2

/-- The invariant maintained by the per-pixel body loop: if no record has
been written the running minimum is still `np.inf`, and a written record
carries the running minimum, a finite depth, a body from the scene, that
body's own intersection depth, and the corresponding `mu`. -/
def stInv (ray : Ray) (S : List Body) (st : WithTop ℝ × Option Hit) : Prop :=
  (st.2 = none → st.1 = ⊤) ∧
  ∀ h : Hit, st.2 = some h → h.t = st.1 ∧ h.t ≠ ⊤ ∧ h.body ∈ S ∧
    intersect ray h.body = h.t ∧ h.mu = muVal ray h.body h.t

lemma fold_inv (ray : Ray) (S : List Body) :
    ∀ (bodies : List Body) (st : WithTop ℝ × Option Hit), stInv ray S st →
      (∀ b ∈ bodies, b ∈ S) → stInv ray S (bodies.foldl (traceStep ray) st) := by
  intro bodies
  induction bodies with
  | nil =>
    intro st h _
    exact h
  | cons b bs ih =>
    intro st hst hsub
    simp only [List.foldl_cons]
    apply ih
    · unfold traceStep
      by_cases hle : st.1 ≤ intersect ray b
      · rw [if_pos hle]
        exact hst
      · rw [if_neg hle]
        constructor
        · intro hnone
          simp at hnone
        · intro h hh
          have hrec : (⟨b, intersect ray b, muVal ray b (intersect ray b)⟩ : Hit) = h := by
            simpa using hh
          subst hrec
          refine ⟨rfl, ?_, hsub b (List.mem_cons_self b bs), rfl, rfl⟩
          exact ne_top_of_lt (lt_of_lt_of_le (not_le.mp hle) le_top)
    · intro c hc
      exact hsub c (List.mem_cons_of_mem _ hc)

lemma fold_all_top (ray : Ray) :
    ∀ bodies : List Body, (∀ b ∈ bodies, intersect ray b = ⊤) →
      bodies.foldl (traceStep ray) (⊤, none) = ((⊤ : WithTop ℝ), (none : Option Hit)) := by
  intro bodies
  induction bodies with
  | nil =>
    intro
    rfl
  | cons b bs ih =>
    intro hall
    simp only [List.foldl_cons]
    have hb : intersect ray b = ⊤ := hall b (List.mem_cons_self b bs)
    have hstep : traceStep ray (⊤, none) b = ((⊤ : WithTop ℝ), (none : Option Hit)) := by
      unfold traceStep
      rw [if_pos (by rw [hb])]
    rw [hstep]
    exact ih fun c hc => hall c (List.mem_cons_of_mem _ hc)

/-- C2 (amended): per-pixel contract of `Scene.trace`.  A fresh scene's grids
hold the defaults `flux = NaN, mu = NaN, t = +infinity, body = none`.  A
pixel's body loop leaves no record exactly when every body's intersection is
`+infinity` there; in that case `trace` leaves the pixel's previous grid
values in place (it does not reset them to the defaults).  When a record is
left, the pixel holds the nearest hit: flux is the fixed placeholder `1`,
`mu` is the recorded limb-angle cosine of the formula, `t` is the winning
body's own intersection depth, finite and minimal among all bodies, and
`body` is the owning body. -/
theorem C2_trace_pixel_contract (res : ℕ) (s : Scene res) (idx : Fin res × Fin res)
    (bodies0 : List Body) :
    ((Scene.init bodies0 res).flux idx = none ∧ (Scene.init bodies0 res).mu idx = none ∧
      (Scene.init bodies0 res).t idx = ⊤ ∧ (Scene.init bodies0 res).body idx = none)
    ∧ (pixelResult s idx = none ↔ ∀ b ∈ s.bodies, intersect (pixelRay s idx) b = ⊤)
    ∧ (pixelResult s idx = none →
        (s.trace).flux idx = s.flux idx ∧ (s.trace).mu idx = s.mu idx ∧
        (s.trace).t idx = s.t idx ∧ (s.trace).body idx = s.body idx)
    ∧ ∀ h : Hit, pixelResult s idx = some h →
        (s.trace).flux idx = some 1 ∧ (s.trace).mu idx = h.mu ∧
        (s.trace).t idx = h.t ∧ (s.trace).body idx = some h.body ∧
        h.body ∈ s.bodies ∧ intersect (pixelRay s idx) h.body = h.t ∧ h.t ≠ ⊤ ∧
        h.mu = muVal (pixelRay s idx) h.body h.t ∧
        ∀ b ∈ s.bodies, h.t ≤ intersect (pixelRay s idx) b := by
  have hInvInit : stInv (pixelRay s idx) s.bodies ((⊤ : WithTop ℝ), (none : Option Hit)) := by
    constructor
    · intro
      rfl
    · intro h hh
      simp at hh
  have hInv : stInv (pixelRay s idx) s.bodies (tracePixel (pixelRay s idx) s.bodies) :=
    fold_inv (pixelRay s idx) s.bodies s.bodies ((⊤ : WithTop ℝ), (none : Option Hit))
      hInvInit (fun _ hb => hb)
  have hFst := fold_fst_le (pixelRay s idx) s.bodies ((⊤ : WithTop ℝ), (none : Option Hit))
  refine ⟨⟨rfl, rfl, rfl, rfl⟩, ?_, ?_, ?_⟩
  · constructor
    · intro hnone b hb
      have h1 : (tracePixel (pixelRay s idx) s.bodies).1 = ⊤ := hInv.1 hnone
      have h2 : (tracePixel (pixelRay s idx) s.bodies).1 ≤ intersect (pixelRay s idx) b :=
        hFst.2 b hb
      rw [h1] at h2
      exact top_le_iff.mp h2
    · intro hall
      show (tracePixel (pixelRay s idx) s.bodies).2 = none
      rw [tracePixel, fold_all_top _ _ hall]
  · intro hnone
    refine ⟨?_, ?_, ?_, ?_⟩ <;>
      · dsimp only [Scene.trace]
        rw [hnone]
  · intro h hh
    obtain ⟨ht_eq, hne, hmem, hint, hmu⟩ := hInv.2 h hh
    refine ⟨?_, ?_, ?_, ?_, hmem, hint, hne, hmu, ?_⟩
    · dsimp only [Scene.trace]
      rw [hh]
    · dsimp only [Scene.trace]
      rw [hh]
    · dsimp only [Scene.trace]
      rw [hh]
    · dsimp only [Scene.trace]
      rw [hh]
    · intro b hb
      have h2 := hFst.2 b hb
      unfold tracePixel at ht_eq
      rw [← ht_eq] at h2
      exact h2

/-- Counterexample body A: unit sphere at the origin. -/
def cexA : Body := ⟨⟨0, 0, 0⟩, 1⟩

/-- Counterexample body B: unit sphere at `(9, 0, 0)`, added later to widen
the scene extent. -/
def cexB : Body := ⟨⟨9, 0, 0⟩, 1⟩

/-- The counterexample scene: build a 3x3 scene around A, trace it (the
centre pixel records a hit on A), then add B, which stretches the extent so
that the centre pixel's new ray misses every body. -/
def cexScene : Scene 3 := ((Scene.init [cexA] 3).trace).add [cexB]

lemma vnorm_down1 : vnorm ⟨0, 0, -1⟩ = 1 := by
  simp only [vnorm, dot]
  norm_num

lemma nrm_down1 : nrm ⟨0, 0, -1⟩ = some ⟨0, 0, -1⟩ := by
  rw [nrm, if_neg (by rw [vnorm_down1]; norm_num), vnorm_down1]
  norm_num

lemma nrm_vert (x y : ℝ) : nrm ((⟨x, y, 0⟩ : Vec3) - ⟨x, y, 1⟩) = some ⟨0, 0, -1⟩ := by
  have h : ((⟨x, y, 0⟩ : Vec3) - ⟨x, y, 1⟩) = ⟨0, 0, -1⟩ := by
    ext <;> simp
  rw [h, nrm_down1]

lemma ray_vert_u (x y : ℝ) : (Ray.make ⟨x, y, 1⟩ ⟨x, y, 0⟩).u = some ⟨0, 0, -1⟩ :=
  nrm_vert x y

lemma intersect_cexA_center :
    intersect (Ray.make ⟨0, 0, 1⟩ ⟨0, 0, 0⟩) cexA = ((0 : ℝ) : WithTop ℝ) := by
  have hI : intersect (Ray.make ⟨0, 0, 1⟩ ⟨0, 0, 0⟩) cexA =
      intersectU ⟨0, 0, -1⟩ ⟨0, 0, 1⟩ cexA := by
    simp [intersect, Ray.make, nrm_vert 0 0]
  rw [hI]
  simp only [intersectU, cexA, dot, Vec3.sub_x, Vec3.sub_y, Vec3.sub_z]
  norm_num [sqrt_four, min_def, max_def]

lemma intersect_miss45A :
    intersect (Ray.make ⟨9 / 2, 9 / 2, 1⟩ ⟨9 / 2, 9 / 2, 0⟩) cexA = ⊤ := by
  have hI : intersect (Ray.make ⟨9 / 2, 9 / 2, 1⟩ ⟨9 / 2, 9 / 2, 0⟩) cexA =
      intersectU ⟨0, 0, -1⟩ ⟨9 / 2, 9 / 2, 1⟩ cexA := by
    simp [intersect, Ray.make, nrm_vert (9 / 2) (9 / 2)]
  rw [hI]
  simp only [intersectU, cexA, dot, Vec3.sub_x, Vec3.sub_y, Vec3.sub_z]
  norm_num

lemma intersect_miss45B :
    intersect (Ray.make ⟨9 / 2, 9 / 2, 1⟩ ⟨9 / 2, 9 / 2, 0⟩) cexB = ⊤ := by
  have hI : intersect (Ray.make ⟨9 / 2, 9 / 2, 1⟩ ⟨9 / 2, 9 / 2, 0⟩) cexB =
      intersectU ⟨0, 0, -1⟩ ⟨9 / 2, 9 / 2, 1⟩ cexB := by
    simp [intersect, Ray.make, nrm_vert (9 / 2) (9 / 2)]
  rw [hI]
  simp only [intersectU, cexB, dot, Vec3.sub_x, Vec3.sub_y, Vec3.sub_z]
  norm_num

lemma cexExtentA : sceneExtent [cexA] = ((-1, 1), ((1 : ℝ) : WithTop ℝ)) := by
  simp only [sceneExtent, List.foldl_nil, cexA]
  norm_num

lemma cexExtentAB : sceneExtent [cexA, cexB] = ((-1, 10), ((1 : ℝ) : WithTop ℝ)) := by
  simp only [sceneExtent, List.foldl_cons, List.foldl_nil, cexA, cexB]
  norm_num

lemma cexS0_zmax : (Scene.init [cexA] 3).zmax = ((1 : ℝ) : WithTop ℝ) := by
  show (sceneExtent [cexA]).2 = _
  rw [cexExtentA]

lemma cexS0_x1 : (Scene.init [cexA] 3).x (1 : Fin 3) = 0 := by
  show linspace (sceneExtent [cexA]).1.1 (sceneExtent [cexA]).1.2 3 (1 : Fin 3) = 0
  rw [cexExtentA]
  simp [linspace]
  norm_num

lemma cexS0_y1 : (Scene.init [cexA] 3).y (1 : Fin 3) = 0 := by
  show linspace (sceneExtent [cexA]).1.1 (sceneExtent [cexA]).1.2 3 (1 : Fin 3) = 0
  rw [cexExtentA]
  simp [linspace]
  norm_num

lemma cexRay0 : pixelRay (Scene.init [cexA] 3) (1, 1) = Ray.make ⟨0, 0, 1⟩ ⟨0, 0, 0⟩ := by
  unfold pixelRay
  rw [cexS0_zmax, WithTop.recTopCoe_coe]
  dsimp only
  rw [cexS0_x1, cexS0_y1]

lemma cexS0_pixelResult : pixelResult (Scene.init [cexA] 3) (1, 1) =
    some ⟨cexA, ((0 : ℝ) : WithTop ℝ),
      muVal (Ray.make ⟨0, 0, 1⟩ ⟨0, 0, 0⟩) cexA ((0 : ℝ) : WithTop ℝ)⟩ := by
  show (tracePixel (pixelRay (Scene.init [cexA] 3) (1, 1)) [cexA]).2 = _
  rw [cexRay0]
  simp only [tracePixel, List.foldl_cons, List.foldl_nil, traceStep, intersect_cexA_center]
  rw [if_neg (by simp)]

lemma cexS1_t : ((Scene.init [cexA] 3).trace).t (1, 1) = ((0 : ℝ) : WithTop ℝ) := by
  dsimp only [Scene.trace]
  rw [cexS0_pixelResult]

lemma cexScene_t : cexScene.t (1, 1) = ((0 : ℝ) : WithTop ℝ) := cexS1_t

lemma cexScene_bodies : cexScene.bodies = [cexA, cexB] := rfl

lemma cexScene_zmax : cexScene.zmax = ((1 : ℝ) : WithTop ℝ) := by
  show (sceneExtent ([cexA] ++ [cexB])).2 = _
  rw [show [cexA] ++ [cexB] = [cexA, cexB] from rfl, cexExtentAB]

lemma cexScene_x1 : cexScene.x (1 : Fin 3) = 9 / 2 := by
  show linspace (sceneExtent ([cexA] ++ [cexB])).1.1 (sceneExtent ([cexA] ++ [cexB])).1.2 3
      (1 : Fin 3) = 9 / 2
  rw [show [cexA] ++ [cexB] = [cexA, cexB] from rfl, cexExtentAB]
  simp [linspace]
  norm_num

lemma cexScene_y1 : cexScene.y (1 : Fin 3) = 9 / 2 := by
  show linspace (sceneExtent ([cexA] ++ [cexB])).1.1 (sceneExtent ([cexA] ++ [cexB])).1.2 3
      (1 : Fin 3) = 9 / 2
  rw [show [cexA] ++ [cexB] = [cexA, cexB] from rfl, cexExtentAB]
  simp [linspace]
  norm_num

lemma cexRay2 : pixelRay cexScene (1, 1) = Ray.make ⟨9 / 2, 9 / 2, 1⟩ ⟨9 / 2, 9 / 2, 0⟩ := by
  unfold pixelRay
  rw [cexScene_zmax, WithTop.recTopCoe_coe]
  dsimp only
  rw [cexScene_x1, cexScene_y1]

lemma cexScene_pixelResult : pixelResult cexScene (1, 1) = none := by
  show (tracePixel (pixelRay cexScene (1, 1)) cexScene.bodies).2 = none
  rw [cexRay2, cexScene_bodies, tracePixel, fold_all_top]
  intro b hb
  rcases List.mem_cons.mp hb with rfl | hb2
  · exact intersect_miss45A
  · rcases List.mem_cons.mp hb2 with rfl | hb3
    · exact intersect_miss45B
    · simp at hb3

/-- C2 counterexample: `Scene.trace` does not rebuild the output grids.  On
the concrete scene built by trace-then-add, the centre pixel is hit by no
body in the second trace, yet its `t` value stays at the stale depth `0`
recorded by the first trace instead of the default `+infinity` the claim
demands for no-hit pixels. -/
theorem C2_counterexample :
    ¬ ∀ idx : Fin 3 × Fin 3, pixelResult cexScene idx = none →
        (cexScene.trace).flux idx = none ∧ (cexScene.trace).mu idx = none ∧
        (cexScene.trace).t idx = ⊤ ∧ (cexScene.trace).body idx = none := by
  intro hclaim
  have h := (hclaim (1, 1) cexScene_pixelResult).2.2.1
  have ht : (cexScene.trace).t (1, 1) = ((0 : ℝ) : WithTop ℝ) := by
    dsimp only [Scene.trace]
    rw [cexScene_pixelResult, cexScene_t]
  rw [ht] at h
  exact WithTop.coe_ne_top h

/-- Witness for the amended C2 theorem at the concrete scene: the centre
pixel has no hit, and `trace` leaves its (stale, non-default) grid values in
place. -/
theorem C2_witness :
    pixelResult cexScene (1, 1) = none ∧
      (cexScene.trace).t (1, 1) = cexScene.t (1, 1) :=
  ⟨cexScene_pixelResult,
    ((C2_trace_pixel_contract 3 cexScene (1, 1) []).2.2.1 cexScene_pixelResult).2.2.1⟩

-- ## Aliasing model for the in-place `normalize`

/-- A heap of numpy arrays: addresses are naturals, each holding a length-3
float array (`none` for an all-NaN array). -/
def Store := ℕ → Option Vec3

/-- `normalize(x)` as a store operation: `x /= np.linalg.norm(x)` writes the
normalized value back into the argument's own array and returns that same
array (the same address). -/
def normalizeS (σ : Store) (a : ℕ) : Store × ℕ :=
  (Function.update σ a ((σ a).bind nrm), a)

/-- The `self.axis = normalize(axis)` line of `Star.__init__` as a store
operation: the store after construction, and the address stored in
`self.axis` (the caller's own array). -/
def starInitAxisS (σ : Store) (axis : ℕ) : Store × ℕ := normalizeS σ axis

/-- `angle_between(v0, v1)` as a store operation: both argument arrays are
normalized in place first; the returned angle is `arccos(dot(v0, v1))` of
the mutated arrays (`none` when either is NaN). -/
def angle_betweenS (σ : Store) (a b : ℕ) : Store × Option ℝ :=
  let σ1 := (normalizeS σ a).1
  let σ2 := (normalizeS σ1 b).1
  (σ2, match σ2 a, σ2 b with
    | some v0, some v1 => some (arccos (dot v0 v1))
    | _, _ => none)

/-- C10: `normalize` mutates its argument in place and returns the same
array: the returned address is the argument's address and the store now
holds the normalized value there.  Consequently `Star.__init__` mutates the
caller's axis array, and `angle_between` mutates both of its (distinct)
input arrays as a side effect. -/
theorem C10_normalize_in_place (σ : Store) (a b : ℕ) :
    (normalizeS σ a).2 = a
    ∧ (normalizeS σ a).1 a = (σ a).bind nrm
    ∧ (starInitAxisS σ a).1 a = (σ a).bind nrm
    ∧ (a ≠ b →
        (angle_betweenS σ a b).1 a = (σ a).bind nrm ∧
        (angle_betweenS σ a b).1 b = (σ b).bind nrm) := by
  have hupd : (normalizeS σ a).1 a = (σ a).bind nrm := by
    show Function.update σ a ((σ a).bind nrm) a = (σ a).bind nrm
    rw [Function.update_same]
  refine ⟨rfl, hupd, hupd, ?_⟩
  intro hab
  constructor
  · show Function.update (normalizeS σ a).1 b (((normalizeS σ a).1 b).bind nrm) a =
      (σ a).bind nrm
    rw [Function.update_noteq hab, hupd]
  · show Function.update (normalizeS σ a).1 b (((normalizeS σ a).1 b).bind nrm) b =
      (σ b).bind nrm
    rw [Function.update_same]
    show (Function.update σ a ((σ a).bind nrm) b).bind nrm = (σ b).bind nrm
    rw [Function.update_noteq (Ne.symm hab)]

/-- A concrete store for the C10 witness: every address holds `(0, 2, 0)`. -/
def wStore : Store := fun _ => some ⟨0, 2, 0⟩

/-- Witness for C10 at concrete distinct addresses `0` and `1`. -/
theorem C10_witness :
    ((0 : ℕ) ≠ 1) ∧ (angle_betweenS wStore 0 1).1 0 = (wStore 0).bind nrm :=
  ⟨by norm_num, ((C10_normalize_in_place wStore 0 1).2.2.2 (by norm_num)).1⟩

-- ## Euler-angle recovery (claim C4)

lemma cos_sin_atan2_unit (x y : ℝ) (h : x ^ 2 + y ^ 2 = 1) :
    cos (atan2 y x) = x ∧ sin (atan2 y x) = y := by
  have hz : (⟨x, y⟩ : ℂ) ≠ 0 := by
    intro h0
    have hx : x = 0 := by
      have := congrArg Complex.re h0
      simpa using this
    have hy : y = 0 := by
      have := congrArg Complex.im h0
      simpa using this
    rw [hx, hy] at h
    norm_num at h
  have habs : Complex.abs ⟨x, y⟩ = 1 := by
    rw [Complex.abs_apply, Complex.normSq_mk,
      show x * x + y * y = 1 by linear_combination h]
    exact sqrt_one
  constructor
  · rw [atan2, Complex.cos_arg hz, habs]
    simp
  · rw [atan2, Complex.sin_arg, habs]
    simp

lemma nrm_of_unit (u : Vec3) (h : vnorm u = 1) : nrm u = some u := by
  rw [nrm, if_neg (by rw [h]; norm_num), h]
  simp

lemma vnorm_ex : vnorm ⟨1, 0, 0⟩ = 1 := by
  simp only [vnorm, dot]
  norm_num

lemma atan2_one_zero : atan2 1 0 = π / 2 := by
  have h : (⟨0, 1⟩ : ℂ) = Complex.I := by
    simp [Complex.ext_iff]
  rw [atan2, h, Complex.arg_I]

lemma atan2_neg_one_zero : atan2 (-1) 0 = -(π / 2) := by
  have h : (⟨0, -1⟩ : ℂ) = -Complex.I := by
    simp [Complex.ext_iff]
  rw [atan2, h, Complex.arg_neg_I]

lemma gea_eval : get_Euler_angles ⟨1, 0, 0⟩ (π / 2) = (atan2 (-1) 0, atan2 1 0, atan2 1 0) := by
  have hθ : (π / 2 : ℝ) ≠ 0 := ne_of_gt (by positivity)
  have hxy : ¬((⟨1, 0, 0⟩ : Vec3).x = 0 ∧ (⟨1, 0, 0⟩ : Vec3).y = 0) := by
    intro h
    exact absurd h.1 (by norm_num)
  simp only [get_Euler_angles, if_neg hθ, if_neg hxy, Real.cos_pi_div_two,
    Real.sin_pi_div_two]
  norm_num [tol, Real.sqrt_one]

lemma rb_eval : rotate_basis ⟨0, 1, 0⟩ (-(π / 2)) (π / 2) (π / 2) = ⟨0, -1, 0⟩ := by
  simp only [rotate_basis, rotX, rotY, rotZ, Real.cos_pi_div_two, Real.sin_pi_div_two,
    Real.cos_neg, Real.sin_neg]
  ext <;> norm_num

lemma raa_eval : rotate_axis_angle ⟨0, 1, 0⟩ ⟨1, 0, 0⟩ (π / 2) = some ⟨0, 0, 1⟩ := by
  rw [rotate_axis_angle, nrm_of_unit _ vnorm_ex, Option.map_some']
  simp only [rodrigues, Real.cos_pi_div_two, Real.sin_pi_div_two]
  norm_num

/-- C4 counterexample: at the unit axis `(1, 0, 0)`, angle `π/2` and point
`(0, 1, 0)`, feeding the angles returned by `get_Euler_angles` into
`rotate_basis` gives `(0, -1, 0)` whereas `rotate_axis_angle` gives
`(0, 0, 1)`: the recovered angles are ZYZ Euler angles, while `rotate_basis`
composes `Rz(gamma)·Ry(beta)·Rx(alpha)`, so the two do not agree. -/
theorem C4_counterexample :
    some (rotate_basis ⟨0, 1, 0⟩ (get_Euler_angles ⟨1, 0, 0⟩ (π / 2)).1
        (get_Euler_angles ⟨1, 0, 0⟩ (π / 2)).2.1
        (get_Euler_angles ⟨1, 0, 0⟩ (π / 2)).2.2) ≠
      rotate_axis_angle ⟨0, 1, 0⟩ ⟨1, 0, 0⟩ (π / 2) := by
  rw [gea_eval]
  dsimp only
  rw [atan2_neg_one_zero, atan2_one_zero, rb_eval, raa_eval]
  simp only [ne_eq, Option.some.injEq, Vec3.mk.injEq]
  intro h
  norm_num at h
/-- C4 (amended): the angles returned by `get_Euler_angles(u, theta)` are ZYZ
Euler angles: for a unit axis and inputs avoiding all three degenerate
tolerance branches (`theta = 0`, `ux = uy = 0`, and `RA22` within `tol` of
`±1`), the composition `Rz(alpha) · Ry(beta) · Rz(gamma)` reproduces
`rotate_axis_angle(P, u, theta)` exactly for every point `P`.
`rotate_basis`, which instead applies `Rz(gamma) · Ry(beta) · Rx(alpha)`,
does not reproduce it (see the counterexample). -/
theorem C4_euler_angles_zyz (u : Vec3) (θ : ℝ) (P : Vec3)
    (hunit : vnorm u = 1) (hθ : θ ≠ 0) (hxy : ¬(u.x = 0 ∧ u.y = 0))
    (hlow : -1 + tol ≤ cos θ + u.z * u.z * (1 - cos θ))
    (hhigh : cos θ + u.z * u.z * (1 - cos θ) ≤ 1 - tol) :
    rotate_axis_angle P u θ =
      some (rotZ (get_Euler_angles u θ).1
        (rotY (get_Euler_angles u θ).2.1 (rotZ (get_Euler_angles u θ).2.2 P))) := by
  have hU : u.x ^ 2 + u.y ^ 2 + u.z ^ 2 = 1 := by
    have h1 : dot u u = 1 := by
      rw [← sq_vnorm u, hunit]
      norm_num
    simp only [dot] at h1
    linear_combination h1
  have hS : sin θ ^ 2 + cos θ ^ 2 = 1 := sin_sq_add_cos_sq θ
  have htol : (0 : ℝ) < tol := by norm_num [tol]
  have hN : (0 : ℝ) < 1 - (cos θ + u.z * u.z * (1 - cos θ)) ^ 2 := by nlinarith
  set n := sqrt (1 - (cos θ + u.z * u.z * (1 - cos θ)) ^ 2) with hndef
  have hnpos : 0 < n := Real.sqrt_pos.mpr hN
  have hnne : n ≠ 0 := ne_of_gt hnpos
  have hnn : n ^ 2 = 1 - (cos θ + u.z * u.z * (1 - cos θ)) ^ 2 := by
    rw [hndef]
    exact Real.sq_sqrt (le_of_lt hN)
  have hI1 : (u.z * u.x * (1 - cos θ) - u.y * sin θ) * (u.z * u.x * (1 - cos θ) - u.y * sin θ) +
      (u.z * u.y * (1 - cos θ) + u.x * sin θ) * (u.z * u.y * (1 - cos θ) + u.x * sin θ) =
      1 - (cos θ + u.z * u.z * (1 - cos θ)) ^ 2 := by
    linear_combination (1 - cos θ ^ 2 + u.z ^ 2 - 2 * u.z ^ 2 * cos θ + u.z ^ 2 * cos θ ^ 2) * hU +
      (u.y ^ 2 + u.x ^ 2) * hS
  have hI2 : (u.x * u.z * (1 - cos θ) + u.y * sin θ) * (u.x * u.z * (1 - cos θ) + u.y * sin θ) +
      (u.y * u.z * (1 - cos θ) - u.x * sin θ) * (u.y * u.z * (1 - cos θ) - u.x * sin θ) =
      1 - (cos θ + u.z * u.z * (1 - cos θ)) ^ 2 := by
    linear_combination (1 - cos θ ^ 2 + u.z ^ 2 - 2 * u.z ^ 2 * cos θ + u.z ^ 2 * cos θ ^ 2) * hU +
      (u.y ^ 2 + u.x ^ 2) * hS
  have hn1 : sqrt ((u.z * u.x * (1 - cos θ) - u.y * sin θ) * (u.z * u.x * (1 - cos θ) - u.y * sin θ) +
      (u.z * u.y * (1 - cos θ) + u.x * sin θ) * (u.z * u.y * (1 - cos θ) + u.x * sin θ)) = n := by
    rw [hndef]
    exact congrArg sqrt hI1
  have hn2 : sqrt ((u.x * u.z * (1 - cos θ) + u.y * sin θ) * (u.x * u.z * (1 - cos θ) + u.y * sin θ) +
      (u.y * u.z * (1 - cos θ) - u.x * sin θ) * (u.y * u.z * (1 - cos θ) - u.x * sin θ)) = n := by
    rw [hndef]
    exact congrArg sqrt hI2
  have hc1 : ¬(cos θ + u.z * u.z * (1 - cos θ) < -1 + tol ∧
      -1 - tol < cos θ + u.z * u.z * (1 - cos θ)) :=
    fun hcc => absurd hcc.1 (not_lt.mpr hlow)
  have hc2 : ¬(cos θ + u.z * u.z * (1 - cos θ) < 1 + tol ∧
      1 - tol < cos θ + u.z * u.z * (1 - cos θ)) :=
    fun hcc => absurd hcc.2 (not_lt.mpr hhigh)
  have hgea : get_Euler_angles u θ =
      (atan2 ((u.y * u.z * (1 - cos θ) - u.x * sin θ) / n)
         ((u.x * u.z * (1 - cos θ) + u.y * sin θ) / n),
       atan2 n (cos θ + u.z * u.z * (1 - cos θ)),
       atan2 ((u.z * u.y * (1 - cos θ) + u.x * sin θ) / n)
         (-(u.z * u.x * (1 - cos θ) - u.y * sin θ) / n)) := by
    simp only [get_Euler_angles, if_neg hθ, if_neg hxy, if_neg hc1, if_neg hc2]
    rw [hn1, hn2, ← hndef]
  have hβpair : (cos θ + u.z * u.z * (1 - cos θ)) ^ 2 + n ^ 2 = 1 := by
    rw [hnn]
    ring
  obtain ⟨hcb, hsb⟩ := cos_sin_atan2_unit (cos θ + u.z * u.z * (1 - cos θ)) n hβpair
  have hγpair : (-(u.z * u.x * (1 - cos θ) - u.y * sin θ) / n) ^ 2 +
      ((u.z * u.y * (1 - cos θ) + u.x * sin θ) / n) ^ 2 = 1 := by
    field_simp
    linear_combination hI1 - hnn
  obtain ⟨hcg0, hsg0⟩ := cos_sin_atan2_unit (-(u.z * u.x * (1 - cos θ) - u.y * sin θ) / n)
    ((u.z * u.y * (1 - cos θ) + u.x * sin θ) / n) hγpair
  have hαpair : ((u.x * u.z * (1 - cos θ) + u.y * sin θ) / n) ^ 2 +
      ((u.y * u.z * (1 - cos θ) - u.x * sin θ) / n) ^ 2 = 1 := by
    field_simp
    linear_combination hI2 - hnn
  obtain ⟨hca0, hsa0⟩ := cos_sin_atan2_unit ((u.x * u.z * (1 - cos θ) + u.y * sin θ) / n)
    ((u.y * u.z * (1 - cos θ) - u.x * sin θ) / n) hαpair
  rw [rotate_axis_angle, nrm_of_unit u hunit, Option.map_some', hgea]
  refine congrArg some ?_
  simp only [rodrigues, rotZ, rotY]
  rw [hcb, hsb]
  generalize hca1 : cos (atan2 ((u.y * u.z * (1 - cos θ) - u.x * sin θ) / n)
      ((u.x * u.z * (1 - cos θ) + u.y * sin θ) / n)) = ca
  generalize hsa1 : sin (atan2 ((u.y * u.z * (1 - cos θ) - u.x * sin θ) / n)
      ((u.x * u.z * (1 - cos θ) + u.y * sin θ) / n)) = sa
  generalize hcg1 : cos (atan2 ((u.z * u.y * (1 - cos θ) + u.x * sin θ) / n)
      (-(u.z * u.x * (1 - cos θ) - u.y * sin θ) / n)) = cg
  generalize hsg1 : sin (atan2 ((u.z * u.y * (1 - cos θ) + u.x * sin θ) / n)
      (-(u.z * u.x * (1 - cos θ) - u.y * sin θ) / n)) = sg
  rw [hca1] at hca0
  rw [hsa1] at hsa0
  rw [hcg1] at hcg0
  rw [hsg1] at hsg0
  have hca2 : ca * n = u.x * u.z * (1 - cos θ) + u.y * sin θ := by
    rw [hca0]
    field_simp
  have hsa2 : sa * n = u.y * u.z * (1 - cos θ) - u.x * sin θ := by
    rw [hsa0]
    field_simp
  have hcg2 : cg * n = -(u.z * u.x * (1 - cos θ) - u.y * sin θ) := by
    rw [hcg0]
    field_simp
  have hsg2 : sg * n = u.z * u.y * (1 - cos θ) + u.x * sin θ := by
    rw [hsg0]
    field_simp
  ext
  · apply mul_left_cancel₀ (pow_ne_zero 2 hnne)
    linear_combination (-n ^ 2 * P.z + (cos θ) * n * P.y * sg - (cos θ) * n * P.x * cg + u.z ^ 2 * n * P.y * sg - u.z ^ 2 * n * P.x * cg - u.z ^ 2 * (cos θ) * n * P.y * sg + u.z ^ 2 * (cos θ) * n * P.x * cg) * hca2 +
      (n * P.y * cg + n * P.x * sg) * hsa2 +
      (-u.y * (cos θ) * (sin θ) * P.x + u.y * u.z * P.y - u.y * u.z * (cos θ) * P.y - u.y * u.z ^ 2 * (sin θ) * P.x + u.y * u.z ^ 2 * (cos θ) * (sin θ) * P.x - u.x * (sin θ) * P.y - u.x * u.z * (cos θ) * P.x + u.x * u.z * (cos θ) ^ 2 * P.x - u.x * u.z ^ 3 * P.x + 2 * u.x * u.z ^ 3 * (cos θ) * P.x - u.x * u.z ^ 3 * (cos θ) ^ 2 * P.x) * hcg2 +
      (u.y * (cos θ) * (sin θ) * P.y + u.y * u.z * P.x - u.y * u.z * (cos θ) * P.x + u.y * u.z ^ 2 * (sin θ) * P.y - u.y * u.z ^ 2 * (cos θ) * (sin θ) * P.y - u.x * (sin θ) * P.x + u.x * u.z * (cos θ) * P.y - u.x * u.z * (cos θ) ^ 2 * P.y + u.x * u.z ^ 3 * P.y + (-2) * u.x * u.z ^ 3 * (cos θ) * P.y + u.x * u.z ^ 3 * (cos θ) ^ 2 * P.y) * hsg2 +
      ((cos θ) * P.x - u.z * (sin θ) * P.y + u.x * u.y * P.y - u.x * u.y * (cos θ) * P.y + u.x ^ 2 * P.x - u.x ^ 2 * (cos θ) * P.x) * hnn +
      (-(cos θ) * P.x + (cos θ) ^ 3 * P.x + u.z * (sin θ) * P.y - u.z * (cos θ) ^ 2 * (sin θ) * P.y - u.z ^ 2 * (cos θ) * P.x + 2 * u.z ^ 2 * (cos θ) ^ 2 * P.x - u.z ^ 2 * (cos θ) ^ 3 * P.x + u.z ^ 3 * (sin θ) * P.y + (-2) * u.z ^ 3 * (cos θ) * (sin θ) * P.y + u.z ^ 3 * (cos θ) ^ 2 * (sin θ) * P.y + u.y ^ 2 * P.x - u.y ^ 2 * (sin θ) ^ 2 * P.x - u.y ^ 2 * (cos θ) * P.x + u.y ^ 2 * (cos θ) * (sin θ) ^ 2 * P.x - u.y ^ 2 * (cos θ) ^ 2 * P.x + u.y ^ 2 * (cos θ) ^ 3 * P.x - u.x * u.y * P.y + u.x * u.y * (sin θ) ^ 2 * P.y + u.x * u.y * (cos θ) * P.y - u.x * u.y * (cos θ) * (sin θ) ^ 2 * P.y + u.x * u.y * (cos θ) ^ 2 * P.y - u.x * u.y * (cos θ) ^ 3 * P.y) * hU +
      (-u.y ^ 2 * P.x + u.y ^ 4 * P.x - u.y ^ 4 * (cos θ) * P.x - u.x * u.y ^ 3 * P.y + u.x * u.y ^ 3 * (cos θ) * P.y - u.x ^ 2 * P.x + u.x ^ 2 * u.y ^ 2 * P.x - u.x ^ 2 * u.y ^ 2 * (cos θ) * P.x - u.x ^ 3 * u.y * P.y + u.x ^ 3 * u.y * (cos θ) * P.y) * hS
  · apply mul_left_cancel₀ (pow_ne_zero 2 hnne)
    linear_combination (-n * P.y * cg - n * P.x * sg) * hca2 +
      (-n ^ 2 * P.z + (cos θ) * n * P.y * sg - (cos θ) * n * P.x * cg + u.z ^ 2 * n * P.y * sg - u.z ^ 2 * n * P.x * cg - u.z ^ 2 * (cos θ) * n * P.y * sg + u.z ^ 2 * (cos θ) * n * P.x * cg) * hsa2 +
      (-u.y * (sin θ) * P.y - u.y * u.z * (cos θ) * P.x + u.y * u.z * (cos θ) ^ 2 * P.x - u.y * u.z ^ 3 * P.x + 2 * u.y * u.z ^ 3 * (cos θ) * P.x - u.y * u.z ^ 3 * (cos θ) ^ 2 * P.x + u.x * (cos θ) * (sin θ) * P.x - u.x * u.z * P.y + u.x * u.z * (cos θ) * P.y + u.x * u.z ^ 2 * (sin θ) * P.x - u.x * u.z ^ 2 * (cos θ) * (sin θ) * P.x) * hcg2 +
      (-u.y * (sin θ) * P.x + u.y * u.z * (cos θ) * P.y - u.y * u.z * (cos θ) ^ 2 * P.y + u.y * u.z ^ 3 * P.y + (-2) * u.y * u.z ^ 3 * (cos θ) * P.y + u.y * u.z ^ 3 * (cos θ) ^ 2 * P.y - u.x * (cos θ) * (sin θ) * P.y - u.x * u.z * P.x + u.x * u.z * (cos θ) * P.x - u.x * u.z ^ 2 * (sin θ) * P.y + u.x * u.z ^ 2 * (cos θ) * (sin θ) * P.y) * hsg2 +
      ((cos θ) * P.y + u.z * (sin θ) * P.x + u.y ^ 2 * P.y - u.y ^ 2 * (cos θ) * P.y + u.x * u.y * P.x - u.x * u.y * (cos θ) * P.x) * hnn +
      (-(cos θ) * P.y + (cos θ) ^ 3 * P.y - u.z * (sin θ) * P.x + u.z * (cos θ) ^ 2 * (sin θ) * P.x - u.z ^ 2 * (cos θ) * P.y + 2 * u.z ^ 2 * (cos θ) ^ 2 * P.y - u.z ^ 2 * (cos θ) ^ 3 * P.y - u.z ^ 3 * (sin θ) * P.x + 2 * u.z ^ 3 * (cos θ) * (sin θ) * P.x - u.z ^ 3 * (cos θ) ^ 2 * (sin θ) * P.x - u.x * u.y * P.x + u.x * u.y * (sin θ) ^ 2 * P.x + u.x * u.y * (cos θ) * P.x - u.x * u.y * (cos θ) * (sin θ) ^ 2 * P.x + u.x * u.y * (cos θ) ^ 2 * P.x - u.x * u.y * (cos θ) ^ 3 * P.x + u.x ^ 2 * P.y - u.x ^ 2 * (sin θ) ^ 2 * P.y - u.x ^ 2 * (cos θ) * P.y + u.x ^ 2 * (cos θ) * (sin θ) ^ 2 * P.y - u.x ^ 2 * (cos θ) ^ 2 * P.y + u.x ^ 2 * (cos θ) ^ 3 * P.y) * hU +
      (-u.y ^ 2 * P.y - u.x * u.y ^ 3 * P.x + u.x * u.y ^ 3 * (cos θ) * P.x - u.x ^ 2 * P.y + u.x ^ 2 * u.y ^ 2 * P.y - u.x ^ 2 * u.y ^ 2 * (cos θ) * P.y - u.x ^ 3 * u.y * P.x + u.x ^ 3 * u.y * (cos θ) * P.x + u.x ^ 4 * P.y - u.x ^ 4 * (cos θ) * P.y) * hS
  · apply mul_left_cancel₀ (pow_ne_zero 2 hnne)
    linear_combination (n ^ 2 * P.x) * hcg2 +
      (-n ^ 2 * P.y) * hsg2


/-- Witness for the amended C4 theorem at the concrete unit axis `(1,0,0)`,
angle `π/2` and point `(0,1,0)` (where `RA22 = 0`, well inside the general
branch). -/
theorem C4_witness :
    vnorm ⟨1, 0, 0⟩ = 1 ∧
      rotate_axis_angle ⟨0, 1, 0⟩ ⟨1, 0, 0⟩ (π / 2) =
        some (rotZ (get_Euler_angles ⟨1, 0, 0⟩ (π / 2)).1
          (rotY (get_Euler_angles ⟨1, 0, 0⟩ (π / 2)).2.1
            (rotZ (get_Euler_angles ⟨1, 0, 0⟩ (π / 2)).2.2 ⟨0, 1, 0⟩))) :=
  ⟨vnorm_ex, C4_euler_angles_zyz ⟨1, 0, 0⟩ (π / 2) ⟨0, 1, 0⟩ vnorm_ex
    (ne_of_gt (by positivity))
    (by intro h; exact absurd h.1 (by norm_num))
    (by norm_num [Real.cos_pi_div_two, tol])
    (by norm_num [Real.cos_pi_div_two, tol])⟩
end exotrace
end
